import Mathlib

/-!
Shallow embedding of the RPC dispatch engine in
`src/src/dispatcher/src/rpc/rpc.py` (class `RpcContext`, class `RpcService`,
class `RpcException`, and the four built-in services), together with theorems
checking the specification's claims about it.

Python-level conventions of the embedding:
* Python values crossing the dispatch boundary are `PyVal`.
* Python exceptions are `PyExc`; `RpcException(code, message)` is
  `PyExc.rpc code message`, a `TypeError` is `PyExc.typeError`, and other
  runtime failures are `PyExc.other tag`.
* Fallible Python code is `Except PyExc`.
* Python dicts keyed by strings are association lists with Python dict
  semantics: update replaces the first matching key in place (or appends),
  deletion removes the matching entry, lookup scans for the key.
-/

/-- POSIX errno used by the engine: `errno.EINVAL`. -/
def EINVAL : Nat := 22

/-- POSIX errno used by the engine: `errno.ENOENT`. -/
def ENOENT : Nat := 2

/-- Values passed to and returned from dispatched operations. -/
inductive PyVal where
  | int (n : Int)
  | str (s : String)
  | noneV
deriving DecidableEq

/-- Python exceptions visible at the dispatch boundary.  `rpc` is the
structured `RpcException(code, message)`; `typeError` is Python's `TypeError`
(raised both by argument binding mismatches and by arbitrary code);
`keyError` is Python's `KeyError`; `other` stands for any further
exception class raised by an operation body. -/
inductive PyExc where
  | rpc (code : Nat) (message : String)
  | typeError
  | keyError
  | other (tag : String)
deriving DecidableEq

/-- The `args` argument of `dispatch_call`: a dict (keyword binding), a list
(positional binding), Python `None` (defaulted to `{}`), or any other shape
(e.g. a plain string), which the engine rejects. -/
inductive CallArgs where
  | dict (kvs : List (String × PyVal))
  | list (vs : List PyVal)
  | noneArg
  | other
deriving DecidableEq

/-- Python dict lookup (`d[k]` / `k in d.keys()`), as an association-list scan. -/
def lookupAssoc {α : Type} : List (String × α) → String → Option α
  | [], _ => none
  | (k', v) :: rest, k => if k' = k then some v else lookupAssoc rest k

/-- Python dict update `d[k] = v`: replaces the first entry with key `k` in
place, or appends a fresh entry. -/
def updateAssoc {α : Type} : List (String × α) → String → α → List (String × α)
  | [], k, v => [(k, v)]
  | (k', v') :: rest, k, v =>
    if k' = k then (k, v) :: rest else (k', v') :: updateAssoc rest k v

/-- Python dict deletion `del d[k]` (on a present key): removes the first
entry with key `k`. -/
def removeAssoc {α : Type} : List (String × α) → String → List (String × α)
  | [], _ => []
  | (k', v') :: rest, k =>
    if k' = k then rest else (k', v') :: removeAssoc rest k

/-- A bound method of a service instance: its declared parameter names in
order (excluding `self`), how many of them carry no default value, and its
body, run on the successfully bound environment. -/
structure PyMethod where
  params : List String
  reqCount : Nat
  body : List (String × PyVal) → Except PyExc PyVal

/-- A live service instance.  `members` is what `getattr`/`inspect.getmembers`
sees (the instance's bound methods, including `initialize` and
`enumerate_methods`).  `initCount` instruments how many times the lifecycle
initializer has run on this instance, and `instKeysAtInit` records the
registry instance keys the initializer could observe in the context it was
handed (the concrete services store a reference to that context). -/
structure ServiceInstance where
  initCount : Nat
  instKeysAtInit : Option (List String)
  members : List (String × PyMethod)

/-- A service class: constructing it (`clazz()`) yields a fresh instance with
these bound methods. -/
structure ServiceClass where
  members : List (String × PyMethod)

/-- `clazz()`: a fresh, not yet initialized instance. -/
def newInstance (clazz : ServiceClass) : ServiceInstance :=
  { initCount := 0, instKeysAtInit := none, members := clazz.members }

/-- The `RpcContext` state: `services` maps service name to class,
`instances` maps service name to live instance (the `dispatcher` and
`logger` fields reach collaborators outside the engine and carry no
dispatch-relevant state). -/
structure RpcContext where
  services : List (String × ServiceClass)
  instances : List (String × ServiceInstance)

/-- `instance.initialize(self)`: the lifecycle initializer, handed the
Dispatch Context.  The engine-observable effect modelled is that the
instance becomes initialized (count bumped) having seen the registry state
`ctx` (whose instance keys it records). -/
def initInstance (inst : ServiceInstance) (ctx : RpcContext) : ServiceInstance :=
  { inst with
    initCount := inst.initCount + 1
    instKeysAtInit := some (ctx.instances.map Prod.fst) }

/-- The context state after lines 19-20 of `register_service`
(`self.services[name] = clazz; self.instances[name] = clazz()`) and before
line 21 calls `initialize`: this is the value of `self` that the lifecycle
initializer receives. -/
def register_initCtx (ctx : RpcContext) (name : String) (clazz : ServiceClass) : RpcContext :=
  { ctx with
    services := updateAssoc ctx.services name clazz
    instances := updateAssoc ctx.instances name (newInstance clazz) }

/-- `RpcContext.register_service` (lines 18-21): store the class, store a
fresh instance, then run `self.instances[name].initialize(self)` — the entry
just stored at line 20 is `newInstance clazz`, and `self` at line 21 is
`register_initCtx ctx name clazz`. -/
def register_service (ctx : RpcContext) (name : String) (clazz : ServiceClass) : RpcContext :=
  let ctx1 := register_initCtx ctx name clazz
  { ctx1 with
    instances := updateAssoc ctx1.instances name (initInstance (newInstance clazz) ctx1) }

/-- `RpcContext.unregister_service` (lines 23-28): return silently when the
name is not registered; otherwise `del self.instances[name]` (a `KeyError`
if the instances dict lacks the key) then `del self.services[name]`. -/
def unregister_service (ctx : RpcContext) (name : String) : Except PyExc RpcContext :=
  if (lookupAssoc ctx.services name).isNone then
    Except.ok ctx
  else
    match lookupAssoc ctx.instances name with
    | none => Except.error PyExc.keyError
    | some _ =>
      Except.ok { ctx with
        instances := removeAssoc ctx.instances name
        services := removeAssoc ctx.services name }

/-- Helper for `str.rpartition`: scan for the LAST occurrence of `c`,
returning the characters before and after it, or `none` when `c` does not
occur. -/
def rpartAux (c : Char) : List Char → Option (List Char × List Char)
  | [] => none
  | x :: xs =>
    match rpartAux c xs with
    | some (b, a) => some (x :: b, a)
    | none => if x = c then some ([], xs) else none

/-- Python's `method.rpartition(".")`: split at the last dot into
`(before, ".", after)`; when no dot occurs, `("", "", method)`. -/
def rpartition (s : String) : String × String × String :=
  match rpartAux '.' s.data with
  | some (b, a) => (String.mk b, ".", String.mk a)
  | none => ("", "", s)

/-- Keyword binding `func(**args)` up to the start of the body: succeeds when
every supplied key names a declared parameter and every parameter without a
default is supplied; otherwise Python raises `TypeError`. -/
def bindKeyword (f : PyMethod) (kvs : List (String × PyVal)) :
    Except PyExc (List (String × PyVal)) :=
  if (∀ kv ∈ kvs, kv.1 ∈ f.params) ∧
      (∀ p ∈ f.params.take f.reqCount, ∃ kv ∈ kvs, kv.1 = p) then
    Except.ok kvs
  else
    Except.error PyExc.typeError

/-- Positional binding `func(*args)` up to the start of the body: succeeds
when the argument count covers the parameters without defaults and does not
exceed the declared parameters, binding in sequence order; otherwise Python
raises `TypeError`. -/
def bindPositional (f : PyMethod) (vs : List PyVal) :
    Except PyExc (List (String × PyVal)) :=
  if f.reqCount ≤ vs.length ∧ vs.length ≤ f.params.length then
    Except.ok (f.params.zip vs)
  else
    Except.error PyExc.typeError

/-- The routing-and-binding stage of `RpcContext.dispatch_call`
(lines 30-53, everything up to but not including running the operation
body): split the path at the last dot, default `None` args to `{}`, reject
an empty service name with `EINVAL`, reject an unregistered service with
`ENOENT`, resolve the operation with `getattr` (an `AttributeError` becomes
`ENOENT` "Method not found"), then bind the arguments according to the
container shape.  A binding mismatch surfaces as `PyExc.typeError`, exactly
as Python's call protocol raises it inside the `try` block. -/
def resolveAndBind (ctx : RpcContext) (method : String) (args : CallArgs) :
    Except PyExc (PyMethod × List (String × PyVal)) :=
  let service := (rpartition method).1
  let opname := (rpartition method).2.2
  let args1 := match args with
    | CallArgs.noneArg => CallArgs.dict []
    | a => a
  if service = "" then
    Except.error (PyExc.rpc EINVAL "Invalid function path")
  else
    match lookupAssoc ctx.services service with
    | none => Except.error (PyExc.rpc ENOENT ("Service " ++ service ++ " not found"))
    | some _ =>
      match lookupAssoc ctx.instances service with
      | none => Except.error PyExc.keyError
      | some inst =>
        match lookupAssoc inst.members opname with
        | none => Except.error (PyExc.rpc ENOENT "Method not found")
        | some f =>
          match args1 with
          | CallArgs.dict kvs => (bindKeyword f kvs).map (fun env => (f, env))
          | CallArgs.list vs => (bindPositional f vs).map (fun env => (f, env))
          | _ => Except.error (PyExc.rpc EINVAL
              "Function parameters should be passed as dictionary or array")

/-- The `except TypeError` handler of lines 47-56: a `TypeError` flowing out
of the `try` block (whether from argument binding or from the operation body)
is reclassified as `RpcException(EINVAL, "Invalid function parameters")`;
every other outcome passes through unchanged. -/
def remapTypeError (r : Except PyExc PyVal) : Except PyExc PyVal :=
  match r with
  | Except.error PyExc.typeError =>
    Except.error (PyExc.rpc EINVAL "Invalid function parameters")
  | r => r

/-- `RpcContext.dispatch_call` (lines 30-56): route and bind, run the bound
operation body, and apply the `except TypeError` reclassification to
whatever the `try` block produced. -/
def dispatch_call (ctx : RpcContext) (method : String) (args : CallArgs) :
    Except PyExc PyVal :=
  match resolveAndBind ctx method args with
  | Except.error e => remapTypeError (Except.error e)
  | Except.ok (f, env) => remapTypeError (f.body env)

/-- Python's `method.startswith('_')`: true when the first character of the
name is an underscore. -/
def privacyMarked (m : String) : Bool :=
  match m.data with
  | c :: _ => c = '_'
  | [] => false

/-- `RpcService.enumerate_methods` (lines 59-72): the instance's method
names, dropping any name starting with an underscore and the two reserved
names `initialize` and `enumerate_methods`. -/
def enumerate_methods (inst : ServiceInstance) : List String :=
  (inst.members.map Prod.fst).filter
    (fun m => !privacyMarked m && m != "initialize" && m != "enumerate_methods")

/-- Operation bodies of the built-in services act on collaborators outside
the dispatch engine (`self.__context.dispatcher`, the balancer, the
datastore); the engine treats an invoked body as a black box, so these
bodies are modelled as an unclassified external outcome. -/
def externalCall (tag : String) : List (String × PyVal) → Except PyExc PyVal :=
  fun _ => Except.error (PyExc.other ("external:" ++ tag))

/-- Bound methods of `ManagementService` (lines 104-121), with the members
inherited from `RpcService`. -/
def ManagementService : ServiceClass :=
  { members :=
    [ ("enumerate_methods", ⟨[], 0, externalCall "enumerate_methods"⟩)
    , ("initialize", ⟨["context"], 1, externalCall "ManagementService.initialize"⟩)
    , ("status", ⟨[], 0, externalCall "ManagementService.status"⟩)
    , ("reload_plugins", ⟨[], 0, externalCall "ManagementService.reload_plugins"⟩)
    , ("restart", ⟨[], 0, externalCall "ManagementService.restart"⟩)
    , ("get_connected_clients", ⟨[], 0, externalCall "ManagementService.get_connected_clients"⟩)
    , ("die_you_gravy_sucking_pig_dog", ⟨[], 0, externalCall "ManagementService.die"⟩) ] }

/-- Bound methods of `DiscoveryService` (lines 85-101). -/
def DiscoveryService : ServiceClass :=
  { members :=
    [ ("enumerate_methods", ⟨[], 0, externalCall "enumerate_methods"⟩)
    , ("initialize", ⟨["context"], 1, externalCall "DiscoveryService.initialize"⟩)
    , ("get_services", ⟨[], 0, externalCall "DiscoveryService.get_services"⟩)
    , ("get_tasks", ⟨[], 0, externalCall "DiscoveryService.get_tasks"⟩)
    , ("get_methods", ⟨["service"], 1, externalCall "DiscoveryService.get_methods"⟩) ] }

/-- Bound methods of `EventService` (lines 124-138); `query` declares one
required parameter and three defaulted ones. -/
def EventService : ServiceClass :=
  { members :=
    [ ("enumerate_methods", ⟨[], 0, externalCall "enumerate_methods"⟩)
    , ("initialize", ⟨["context"], 1, externalCall "EventService.initialize"⟩)
    , ("query", ⟨["mask", "start", "end", "limit"], 1, externalCall "EventService.query"⟩) ] }

/-- Bound methods of `TaskService` (lines 141-201); `list_tasks` declares one
defaulted parameter. -/
def TaskService : ServiceClass :=
  { members :=
    [ ("enumerate_methods", ⟨[], 0, externalCall "enumerate_methods"⟩)
    , ("initialize", ⟨["context"], 1, externalCall "TaskService.initialize"⟩)
    , ("submit", ⟨["name", "args"], 2, externalCall "TaskService.submit"⟩)
    , ("status", ⟨["id"], 1, externalCall "TaskService.status"⟩)
    , ("abort", ⟨["id"], 1, externalCall "TaskService.abort"⟩)
    , ("list_queues", ⟨[], 0, externalCall "TaskService.list_queues"⟩)
    , ("list_tasks", ⟨["limit"], 0, externalCall "TaskService.list_tasks"⟩)
    , ("list_active", ⟨[], 0, externalCall "TaskService.list_active"⟩)
    , ("list_failed", ⟨[], 0, externalCall "TaskService.list_failed"⟩) ] }

/-- `RpcContext.__init__` (lines 8-16): start from empty dicts and register
the four built-in services in source order. -/
def RpcContext.init : RpcContext :=
  register_service
    (register_service
      (register_service
        (register_service { services := [], instances := [] } "server" ManagementService)
        "discovery" DiscoveryService)
      "task" TaskService)
    "event" EventService

/-! ### Association-list lemmas -/

theorem lookupAssoc_update_self {α : Type} (m : List (String × α)) (k : String) (v : α) :
    lookupAssoc (updateAssoc m k v) k = some v := by
  induction m with
  | nil => simp [updateAssoc, lookupAssoc]
  | cons p rest ih =>
    obtain ⟨k', v'⟩ := p
    by_cases h : k' = k
    · simp [updateAssoc, lookupAssoc, h]
    · simp [updateAssoc, lookupAssoc, h, ih]

theorem lookupAssoc_eq_none_iff {α : Type} (m : List (String × α)) (k : String) :
    lookupAssoc m k = none ↔ k ∉ m.map Prod.fst := by
  induction m with
  | nil => simp [lookupAssoc]
  | cons p rest ih =>
    obtain ⟨k', v'⟩ := p
    by_cases h : k' = k
    · simp [lookupAssoc, h]
    · simp [lookupAssoc, h, ih, Ne.symm h]

theorem mem_of_lookupAssoc {α : Type} (m : List (String × α)) (k : String) (v : α)
    (h : lookupAssoc m k = some v) : (k, v) ∈ m := by
  induction m with
  | nil => simp [lookupAssoc] at h
  | cons p rest ih =>
    obtain ⟨k', v'⟩ := p
    by_cases hk : k' = k
    · simp [lookupAssoc, hk] at h
      simp [hk, h]
    · simp [lookupAssoc, hk] at h
      exact List.mem_cons_of_mem _ (ih h)

theorem mem_updateAssoc {α : Type} (m : List (String × α)) (k : String) (v : α)
    (p : String × α) (h : p ∈ updateAssoc m k v) : p = (k, v) ∨ p ∈ m := by
  induction m with
  | nil =>
    simp [updateAssoc] at h
    exact Or.inl h
  | cons q rest ih =>
    obtain ⟨k', v'⟩ := q
    by_cases hk : k' = k
    · simp [updateAssoc, hk] at h
      rcases h with h | h
      · exact Or.inl h
      · exact Or.inr (List.mem_cons_of_mem _ h)
    · simp [updateAssoc, hk] at h
      rcases h with h | h
      · exact Or.inr (by simp [h])
      · rcases ih h with h1 | h1
        · exact Or.inl h1
        · exact Or.inr (List.mem_cons_of_mem _ h1)

theorem mem_removeAssoc {α : Type} (m : List (String × α)) (k : String)
    (p : String × α) (h : p ∈ removeAssoc m k) : p ∈ m := by
  induction m with
  | nil => simp [removeAssoc] at h
  | cons q rest ih =>
    obtain ⟨k', v'⟩ := q
    by_cases hk : k' = k
    · simp [removeAssoc, hk] at h
      exact List.mem_cons_of_mem _ h
    · simp [removeAssoc, hk] at h
      rcases h with h | h
      · simp [h]
      · exact List.mem_cons_of_mem _ (ih h)

theorem updateAssoc_updateAssoc {α : Type} (m : List (String × α)) (k : String) (v w : α) :
    updateAssoc (updateAssoc m k v) k w = updateAssoc m k w := by
  induction m with
  | nil => simp [updateAssoc]
  | cons q rest ih =>
    obtain ⟨k', v'⟩ := q
    by_cases hk : k' = k
    · simp [updateAssoc, hk]
    · simp [updateAssoc, hk, ih]

theorem mapFst_updateAssoc_congr {α β : Type} (m : List (String × α)) (m' : List (String × β))
    (k : String) (v : α) (w : β) (h : m.map Prod.fst = m'.map Prod.fst) :
    (updateAssoc m k v).map Prod.fst = (updateAssoc m' k w).map Prod.fst := by
  induction m generalizing m' with
  | nil =>
    have : m' = [] := by
      cases m' with
      | nil => rfl
      | cons q t => simp at h
    subst this
    simp [updateAssoc]
  | cons q rest ih =>
    obtain ⟨k', v'⟩ := q
    cases m' with
    | nil => simp at h
    | cons q' rest' =>
      obtain ⟨k'', v''⟩ := q'
      simp at h
      obtain ⟨hk, hrest⟩ := h
      subst hk
      by_cases hkk : k' = k
      · simp [updateAssoc, hkk, hrest]
      · simp [updateAssoc, hkk]
        exact ih rest' hrest

theorem mapFst_removeAssoc_congr {α β : Type} (m : List (String × α)) (m' : List (String × β))
    (k : String) (h : m.map Prod.fst = m'.map Prod.fst) :
    (removeAssoc m k).map Prod.fst = (removeAssoc m' k).map Prod.fst := by
  induction m generalizing m' with
  | nil =>
    have : m' = [] := by
      cases m' with
      | nil => rfl
      | cons q t => simp at h
    subst this
    simp [removeAssoc]
  | cons q rest ih =>
    obtain ⟨k', v'⟩ := q
    cases m' with
    | nil => simp at h
    | cons q' rest' =>
      obtain ⟨k'', v''⟩ := q'
      simp at h
      obtain ⟨hk, hrest⟩ := h
      subst hk
      by_cases hkk : k' = k
      · simp [removeAssoc, hkk, hrest]
      · simp [removeAssoc, hkk]
        exact ih rest' hrest

theorem lookupAssoc_isSome_congr {α β : Type} (m : List (String × α)) (m' : List (String × β))
    (k : String) (h : m.map Prod.fst = m'.map Prod.fst) :
    (lookupAssoc m k).isSome = (lookupAssoc m' k).isSome := by
  induction m generalizing m' with
  | nil =>
    have : m' = [] := by
      cases m' with
      | nil => rfl
      | cons q t => simp at h
    subst this
    rfl
  | cons q rest ih =>
    obtain ⟨k', v'⟩ := q
    cases m' with
    | nil => simp at h
    | cons q' rest' =>
      obtain ⟨k'', v''⟩ := q'
      simp at h
      obtain ⟨hk, hrest⟩ := h
      subst hk
      by_cases hkk : k' = k
      · simp [lookupAssoc, hkk]
      · simp only [lookupAssoc, if_neg hkk]
        exact ih rest' hrest

theorem lookupAssoc_removeAssoc_self {α : Type} (m : List (String × α)) (k : String)
    (h : (m.map Prod.fst).Nodup) : lookupAssoc (removeAssoc m k) k = none := by
  induction m with
  | nil => simp [removeAssoc, lookupAssoc]
  | cons q rest ih =>
    obtain ⟨k', v'⟩ := q
    rw [List.map_cons, List.nodup_cons] at h
    by_cases hk : k' = k
    · subst hk
      simp [removeAssoc]
      exact (lookupAssoc_eq_none_iff rest k').mpr h.1
    · simp [removeAssoc, hk, lookupAssoc]
      exact ih h.2

theorem lookupAssoc_removeAssoc_ne {α : Type} (m : List (String × α)) (k n : String)
    (h : n ≠ k) : lookupAssoc (removeAssoc m k) n = lookupAssoc m n := by
  induction m with
  | nil => simp [removeAssoc]
  | cons q rest ih =>
    obtain ⟨k', v'⟩ := q
    by_cases hk : k' = k
    · subst hk
      have hn : ¬ k' = n := fun hh => h hh.symm
      simp [removeAssoc, lookupAssoc, hn]
    · by_cases hn : k' = n
      · simp [removeAssoc, hk, lookupAssoc, hn, h]
      · simp [removeAssoc, hk, lookupAssoc, hn, ih]

/-! ### rpartition lemmas -/

theorem rpartAux_eq_none_iff (c : Char) (l : List Char) :
    rpartAux c l = none ↔ c ∉ l := by
  induction l with
  | nil => simp [rpartAux]
  | cons x xs ih =>
    cases h : rpartAux c xs with
    | some p =>
      obtain ⟨b, a⟩ := p
      have hmem : c ∈ xs := by
        by_contra hc
        rw [← ih] at hc
        rw [h] at hc
        simp at hc
      simp [rpartAux, h, hmem]
    | none =>
      have hnot : c ∉ xs := ih.mp h
      by_cases hx : x = c
      · simp [rpartAux, h, hx]
      · have hcx : ¬ c = x := fun hh => hx hh.symm
        simp [rpartAux, h, hx, hnot, hcx]

theorem rpartAux_eq_some (c : Char) : ∀ (l b a : List Char),
    rpartAux c l = some (b, a) → b ++ c :: a = l ∧ c ∉ a := by
  intro l
  induction l with
  | nil => intro b a h; simp [rpartAux] at h
  | cons x xs ih =>
    intro b a h
    cases hx : rpartAux c xs with
    | some p =>
      obtain ⟨b', a'⟩ := p
      have hh : some (x :: b', a') = some (b, a) := by
        rw [rpartAux, hx] at h
        exact h
      have hb : b = x :: b' := by cases hh; rfl
      have ha : a = a' := by cases hh; rfl
      obtain ⟨h1, h2⟩ := ih b' a' hx
      subst hb; subst ha
      constructor
      · simp [← h1]
      · exact h2
    | none =>
      rw [rpartAux, hx] at h
      by_cases hxc : x = c
      · simp [hxc] at h
        obtain ⟨hb, ha⟩ := h
        subst hb; subst ha
        subst hxc
        exact ⟨rfl, (rpartAux_eq_none_iff x xs).mp hx⟩
      · simp [hxc] at h

/-! ### Registry operation sequences and invariants -/

/-- A caller-issued registry operation: `register_service` or
`unregister_service`. -/
inductive RegOp where
  | reg (name : String) (clazz : ServiceClass)
  | unreg (name : String)

/-- Run one registry operation (registration never raises; unregistration
can only raise the `KeyError` of line 27). -/
def applyOp (ctx : RpcContext) : RegOp → Except PyExc RpcContext
  | RegOp.reg n c => Except.ok (register_service ctx n c)
  | RegOp.unreg n => unregister_service ctx n

/-- Run a sequence of registry operations, stopping at the first raised
exception. -/
def applyOps (ctx : RpcContext) : List RegOp → Except PyExc RpcContext
  | [] => Except.ok ctx
  | op :: rest =>
    match applyOp ctx op with
    | Except.ok ctx1 => applyOps ctx1 rest
    | Except.error e => Except.error e

/-- The two registry dicts hold exactly the same keys, in the same order. -/
def sameKeys (ctx : RpcContext) : Prop :=
  ctx.services.map Prod.fst = ctx.instances.map Prod.fst

/-- Every instance held by the registry has been lifecycle-initialized
exactly once. -/
def allInitialized (ctx : RpcContext) : Prop :=
  ∀ p ∈ ctx.instances, (Prod.snd p).initCount = 1

theorem register_service_instances (ctx : RpcContext) (name : String) (clazz : ServiceClass) :
    (register_service ctx name clazz).instances =
      updateAssoc ctx.instances name
        (initInstance (newInstance clazz) (register_initCtx ctx name clazz)) := by
  simp [register_service, register_initCtx, updateAssoc_updateAssoc]

theorem register_service_services (ctx : RpcContext) (name : String) (clazz : ServiceClass) :
    (register_service ctx name clazz).services = updateAssoc ctx.services name clazz := by
  simp [register_service, register_initCtx]

theorem sameKeys_register (ctx : RpcContext) (name : String) (clazz : ServiceClass)
    (h : sameKeys ctx) : sameKeys (register_service ctx name clazz) := by
  unfold sameKeys
  rw [register_service_instances, register_service_services]
  exact mapFst_updateAssoc_congr _ _ name _ _ h

theorem sameKeys_unregister (ctx : RpcContext) (name : String) (h : sameKeys ctx) :
    ∃ ctx2, unregister_service ctx name = Except.ok ctx2 ∧ sameKeys ctx2 := by
  unfold unregister_service
  cases hl : lookupAssoc ctx.services name with
  | none =>
    refine ⟨ctx, ?_, h⟩
    simp [hl]
  | some c =>
    have hsome : (lookupAssoc ctx.instances name).isSome = true := by
      rw [← lookupAssoc_isSome_congr ctx.services ctx.instances name h, hl]
      rfl
    cases hi : lookupAssoc ctx.instances name with
    | none => rw [hi] at hsome; simp at hsome
    | some inst =>
      refine ⟨{ ctx with
          instances := removeAssoc ctx.instances name
          services := removeAssoc ctx.services name }, ?_, ?_⟩
      · simp [hl, hi]
      · exact mapFst_removeAssoc_congr _ _ name h

theorem allInitialized_register (ctx : RpcContext) (name : String) (clazz : ServiceClass)
    (h : allInitialized ctx) : allInitialized (register_service ctx name clazz) := by
  intro p hp
  rw [register_service_instances] at hp
  rcases mem_updateAssoc _ _ _ _ hp with h1 | h1
  · subst h1; rfl
  · exact h p h1

theorem allInitialized_unregister (ctx ctx2 : RpcContext) (name : String)
    (h : allInitialized ctx) (hu : unregister_service ctx name = Except.ok ctx2) :
    allInitialized ctx2 := by
  unfold unregister_service at hu
  by_cases hl : (lookupAssoc ctx.services name).isNone
  · simp [hl] at hu
    subst hu
    exact h
  · simp [hl] at hu
    cases hi : lookupAssoc ctx.instances name with
    | none => rw [hi] at hu; simp at hu
    | some inst =>
      rw [hi] at hu
      simp at hu
      subst hu
      intro p hp
      exact h p (mem_removeAssoc _ _ _ hp)

theorem allInitialized_applyOps (ctx ctx2 : RpcContext) (ops : List RegOp)
    (h : allInitialized ctx) (happ : applyOps ctx ops = Except.ok ctx2) :
    allInitialized ctx2 := by
  induction ops generalizing ctx with
  | nil =>
    simp [applyOps] at happ
    subst happ
    exact h
  | cons op rest ih =>
    cases op with
    | reg n c =>
      simp [applyOps, applyOp] at happ
      exact ih _ (allInitialized_register ctx n c h) happ
    | unreg n =>
      simp only [applyOps, applyOp] at happ
      cases hu : unregister_service ctx n with
      | error e => rw [hu] at happ; simp at happ
      | ok ctx1 =>
        rw [hu] at happ
        exact ih _ (allInitialized_unregister ctx ctx1 n h hu) happ

/-! ### The concrete `math` fixture from the specification's test scenario -/

/-- Body of the scenario operation `add(a, b)`: returns `a + b` on two ints;
on anything else Python's `+` raises `TypeError` from inside the body. -/
def addBody (env : List (String × PyVal)) : Except PyExc PyVal :=
  match lookupAssoc env "a", lookupAssoc env "b" with
  | some (PyVal.int a), some (PyVal.int b) => Except.ok (PyVal.int (a + b))
  | _, _ => Except.error PyExc.typeError

/-- The scenario operation `add(a, b)`. -/
def addMethod : PyMethod := ⟨["a", "b"], 2, addBody⟩

/-- A privacy-marked member `_secret()` that exists on the instance. -/
def secretMethod : PyMethod := ⟨[], 0, fun _ => Except.ok (PyVal.int 42)⟩

/-- An operation whose body raises a non-`TypeError` exception. -/
def pokeMethod : PyMethod := ⟨[], 0, fun _ => Except.error (PyExc.other "RuntimeError")⟩

/-- The scenario service `math`, an `RpcService` subclass with `add`, a
body-raising `poke`, and a privacy-marked `_secret`. -/
def MathService : ServiceClass :=
  { members :=
    [ ("enumerate_methods", ⟨[], 0, externalCall "enumerate_methods"⟩)
    , ("initialize", ⟨["context"], 1, externalCall "MathService.initialize"⟩)
    , ("add", addMethod)
    , ("poke", pokeMethod)
    , ("_secret", secretMethod) ] }

/-- The context after `register_service('math', MathService)` on a fresh
`RpcContext`. -/
def mathCtx : RpcContext := register_service RpcContext.init "math" MathService

/-- The live `math` instance held by `mathCtx`. -/
def mathInst : ServiceInstance :=
  initInstance (newInstance MathService) (register_initCtx RpcContext.init "math" MathService)

/-! ### Claim theorems -/

/-- C10: constructing the Dispatch Context pre-registers exactly the four
built-in services under the names server, discovery, task and event (in
that order, with the registry holding no other entries), each one
lifecycle-initialized with the context exactly once, before any
caller-issued registration or dispatch can run. -/
theorem init_registers_builtins :
    RpcContext.init.services.map Prod.fst = ["server", "discovery", "task", "event"] ∧
    RpcContext.init.instances.map Prod.fst = ["server", "discovery", "task", "event"] ∧
    lookupAssoc RpcContext.init.services "server" = some ManagementService ∧
    lookupAssoc RpcContext.init.services "discovery" = some DiscoveryService ∧
    lookupAssoc RpcContext.init.services "task" = some TaskService ∧
    lookupAssoc RpcContext.init.services "event" = some EventService ∧
    (lookupAssoc RpcContext.init.instances "server").map ServiceInstance.initCount = some 1 ∧
    (lookupAssoc RpcContext.init.instances "discovery").map ServiceInstance.initCount = some 1 ∧
    (lookupAssoc RpcContext.init.instances "task").map ServiceInstance.initCount = some 1 ∧
    (lookupAssoc RpcContext.init.instances "event").map ServiceInstance.initCount = some 1 :=
  ⟨rfl, rfl, rfl, rfl, rfl, rfl, rfl, rfl, rfl, rfl⟩

/-- C9: starting from any context whose two registry dicts hold the same
keys, every sequence of register and unregister operations completes without
an unclassified failure and preserves that the service dict and the instance
dict have exactly the same key list. -/
theorem registry_keys_aligned (ctx : RpcContext) (ops : List RegOp) (h : sameKeys ctx) :
    ∃ ctx2, applyOps ctx ops = Except.ok ctx2 ∧ sameKeys ctx2 := by
  induction ops generalizing ctx with
  | nil => exact ⟨ctx, rfl, h⟩
  | cons op rest ih =>
    cases op with
    | reg n c =>
      obtain ⟨ctx2, h1, h2⟩ := ih (register_service ctx n c) (sameKeys_register ctx n c h)
      exact ⟨ctx2, by simp [applyOps, applyOp, h1], h2⟩
    | unreg n =>
      obtain ⟨ctx1, hu, h1⟩ := sameKeys_unregister ctx n h
      obtain ⟨ctx2, h2, h3⟩ := ih ctx1 h1
      refine ⟨ctx2, ?_, h3⟩
      simp [applyOps, applyOp, hu, h2]

/-- Witness: registry_keys_aligned applied to the initial context and a
concrete register/unregister sequence. -/
theorem registry_keys_aligned_witness :
    ∃ ctx2,
      applyOps RpcContext.init
        [RegOp.reg "math" MathService, RegOp.unreg "server", RegOp.unreg "ghost"] =
        Except.ok ctx2 ∧ sameKeys ctx2 :=
  registry_keys_aligned RpcContext.init
    [RegOp.reg "math" MathService, RegOp.unreg "server", RegOp.unreg "ghost"] rfl

/-- C8: unregister removes the registry entry when the name is present (both
dicts lose exactly that key, everything else is untouched) and is a silent
no-op leaving the context unchanged when the name is absent. -/
theorem unregister_service_spec (ctx : RpcContext) (name : String)
    (hs : (ctx.services.map Prod.fst).Nodup)
    (hi : (ctx.instances.map Prod.fst).Nodup) :
    (lookupAssoc ctx.services name = none → unregister_service ctx name = Except.ok ctx) ∧
    (∀ c inst, lookupAssoc ctx.services name = some c →
      lookupAssoc ctx.instances name = some inst →
      ∃ ctx2, unregister_service ctx name = Except.ok ctx2 ∧
        lookupAssoc ctx2.services name = none ∧
        lookupAssoc ctx2.instances name = none ∧
        ∀ n, n ≠ name →
          lookupAssoc ctx2.services n = lookupAssoc ctx.services n ∧
          lookupAssoc ctx2.instances n = lookupAssoc ctx.instances n) := by
  constructor
  · intro h
    simp [unregister_service, h]
  · intro c inst hc hinst
    refine ⟨{ ctx with
        instances := removeAssoc ctx.instances name
        services := removeAssoc ctx.services name }, ?_, ?_, ?_, ?_⟩
    · simp [unregister_service, hc, hinst]
    · exact lookupAssoc_removeAssoc_self _ _ hs
    · exact lookupAssoc_removeAssoc_self _ _ hi
    · intro n hn
      exact ⟨lookupAssoc_removeAssoc_ne _ _ _ hn, lookupAssoc_removeAssoc_ne _ _ _ hn⟩

/-- Witness: unregister_service_spec applied to the initial context, once at
an absent name and once at the present name task. -/
theorem unregister_service_spec_witness :
    unregister_service RpcContext.init "ghost" = Except.ok RpcContext.init ∧
    ∃ ctx2, unregister_service RpcContext.init "task" = Except.ok ctx2 ∧
      lookupAssoc ctx2.services "task" = none ∧
      lookupAssoc ctx2.instances "task" = none ∧
      ∀ n, n ≠ "task" →
        lookupAssoc ctx2.services n = lookupAssoc RpcContext.init.services n ∧
        lookupAssoc ctx2.instances n = lookupAssoc RpcContext.init.instances n := by
  constructor
  · exact (unregister_service_spec RpcContext.init "ghost" (by decide) (by decide)).1 rfl
  · exact (unregister_service_spec RpcContext.init "task" (by decide) (by decide)).2 _ _ rfl rfl

/-- C5: when the service prefix of the method path is not a registry key,
dispatch_call fails with the structured ENOENT service-not-found error
straight from the routing stage, so no operation is resolved or invoked. -/
theorem unknown_service_not_found (ctx : RpcContext) (method : String) (args : CallArgs)
    (hne : (rpartition method).1 ≠ "")
    (habs : lookupAssoc ctx.services (rpartition method).1 = none) :
    resolveAndBind ctx method args =
      Except.error (PyExc.rpc ENOENT ("Service " ++ (rpartition method).1 ++ " not found")) ∧
    dispatch_call ctx method args =
      Except.error (PyExc.rpc ENOENT ("Service " ++ (rpartition method).1 ++ " not found")) := by
  have h1 : resolveAndBind ctx method args =
      Except.error (PyExc.rpc ENOENT ("Service " ++ (rpartition method).1 ++ " not found")) := by
    unfold resolveAndBind
    simp [hne, habs]
  exact ⟨h1, by simp [dispatch_call, h1, remapTypeError]⟩

/-- Witness: dispatching to the unregistered service missing on the initial
context fails NotFound. -/
theorem unknown_service_not_found_witness :
    dispatch_call RpcContext.init "missing.op" (CallArgs.dict []) =
      Except.error (PyExc.rpc ENOENT "Service missing not found") := by
  have h := unknown_service_not_found RpcContext.init "missing.op" (CallArgs.dict [])
    (by decide) rfl
  exact h.2

/-- C1 (amended): any non-TypeError exception raised from within the body of
a correctly-invoked operation propagates to the caller unchanged; only
outcomes of type TypeError — whether from the binding stage or from the body
— are remapped to the structured InvalidArgument error. -/
theorem body_errors_propagate (ctx : RpcContext) (method : String) (args : CallArgs)
    (f : PyMethod) (env : List (String × PyVal)) (e : PyExc)
    (hres : resolveAndBind ctx method args = Except.ok (f, env))
    (hbody : f.body env = Except.error e)
    (hne : e ≠ PyExc.typeError) :
    dispatch_call ctx method args = Except.error e := by
  have hd : dispatch_call ctx method args = remapTypeError (f.body env) := by
    unfold dispatch_call
    rw [hres]
  rw [hd, hbody]
  cases e with
  | rpc code msg => rfl
  | typeError => exact absurd rfl hne
  | keyError => rfl
  | other tag => rfl

/-- Witness: math.poke is invoked correctly and its body raises a
RuntimeError, which reaches the caller unchanged. -/
theorem body_errors_propagate_witness :
    dispatch_call mathCtx "math.poke" (CallArgs.dict []) =
      Except.error (PyExc.other "RuntimeError") :=
  body_errors_propagate mathCtx "math.poke" (CallArgs.dict []) pokeMethod []
    (PyExc.other "RuntimeError") rfl rfl (by decide)

/-- C1 counterexample: calling math.add with a well-formed keyword container
whose values make the body itself raise TypeError (int plus str).  Binding
succeeds, the body raises, and the engine reports the structured
InvalidArgument error instead of letting the body's TypeError propagate
unchanged — the engine cannot tell a body TypeError from a binding one. -/
theorem body_type_error_reclassified :
    resolveAndBind mathCtx "math.add"
        (CallArgs.dict [("a", PyVal.int 2), ("b", PyVal.str "x")]) =
      Except.ok (addMethod, [("a", PyVal.int 2), ("b", PyVal.str "x")]) ∧
    addMethod.body [("a", PyVal.int 2), ("b", PyVal.str "x")] =
      Except.error PyExc.typeError ∧
    dispatch_call mathCtx "math.add"
        (CallArgs.dict [("a", PyVal.int 2), ("b", PyVal.str "x")]) =
      Except.error (PyExc.rpc EINVAL "Invalid function parameters") ∧
    PyExc.rpc EINVAL "Invalid function parameters" ≠ PyExc.typeError :=
  ⟨rfl, rfl, rfl, by decide⟩

/-- C2 (the code evaluated at the failing input): dispatch_call resolves the
privacy-marked member _secret of math with a bare getattr and invokes it,
returning its result — it does not fail NotFound — while enumerate_methods
on the same instance does hide that member. -/
theorem private_member_dispatch :
    dispatch_call mathCtx "math._secret" (CallArgs.dict []) = Except.ok (PyVal.int 42) ∧
    "_secret" ∉ enumerate_methods mathInst :=
  ⟨rfl, by decide⟩

/-- C3 counterexample: the context handed to the lifecycle initializer (the
value of self at line 21, modelled by register_initCtx) already holds the
still-uninitialized instance under its name, and the math initializer
observes the key math among the registered instances — so the instance is
visible to registry lookups before (and while) its initializer runs, not
only after. -/
theorem instance_visible_during_init :
    lookupAssoc (register_initCtx RpcContext.init "math" MathService).instances "math" =
      some (newInstance MathService) ∧
    (newInstance MathService).initCount = 0 ∧
    (lookupAssoc mathCtx.instances "math").map ServiceInstance.instKeysAtInit =
      some (some ["server", "discovery", "task", "event", "math"]) :=
  ⟨rfl, rfl, rfl⟩

/-- C3 (amended): registration invokes the lifecycle initializer with the
Dispatch Context exactly once — the stored instance ends with initialization
count one — and although the instance is stored before its initializer runs,
registration completes initialization before returning, so after any further
sequence of registry operations every instance reachable by lookup is
initialized and no dispatch_call reaches an uninitialized instance. -/
theorem register_initializes_once (ctx : RpcContext) (name : String) (clazz : ServiceClass)
    (ops : List RegOp) (ctx2 : RpcContext)
    (hinit : allInitialized ctx)
    (happ : applyOps (register_service ctx name clazz) ops = Except.ok ctx2) :
    (lookupAssoc (register_service ctx name clazz).instances name).map
        ServiceInstance.initCount = some 1 ∧
    ∀ n inst, lookupAssoc ctx2.instances n = some inst → inst.initCount = 1 := by
  constructor
  · rw [register_service_instances, lookupAssoc_update_self]
    rfl
  · intro n inst hl
    have h2 := allInitialized_applyOps _ _ ops
      (allInitialized_register ctx name clazz hinit) happ
    exact h2 (n, inst) (mem_of_lookupAssoc _ _ _ hl)

/-- Witness: register_initializes_once applied to registering math on the
initial context, with no further operations. -/
theorem register_initializes_once_applied :
    (lookupAssoc (register_service RpcContext.init "math" MathService).instances "math").map
        ServiceInstance.initCount = some 1 ∧
    ∀ n inst, lookupAssoc mathCtx.instances n = some inst → inst.initCount = 1 :=
  register_initializes_once RpcContext.init "math" MathService [] mathCtx
    (by unfold allInitialized; decide) rfl

/-- C4: once a call reaches the binding stage (non-empty service prefix that
resolves to a registered instance whose member the operation name resolves
to), a dict argument container selects keyword binding, a list selects
positional binding in sequence order, and any other container shape fails
InvalidArgument straight from the binding stage without invoking the
operation. -/
theorem binding_mode_by_shape (ctx : RpcContext) (method : String)
    (c : ServiceClass) (inst : ServiceInstance) (f : PyMethod)
    (hne : (rpartition method).1 ≠ "")
    (hc : lookupAssoc ctx.services (rpartition method).1 = some c)
    (hi : lookupAssoc ctx.instances (rpartition method).1 = some inst)
    (hf : lookupAssoc inst.members (rpartition method).2.2 = some f) :
    (∀ kvs, resolveAndBind ctx method (CallArgs.dict kvs) =
        (bindKeyword f kvs).map (fun env => (f, env))) ∧
    (∀ vs, resolveAndBind ctx method (CallArgs.list vs) =
        (bindPositional f vs).map (fun env => (f, env))) ∧
    (∀ kvs env, bindKeyword f kvs = Except.ok env →
        dispatch_call ctx method (CallArgs.dict kvs) = remapTypeError (f.body env)) ∧
    (∀ vs env, bindPositional f vs = Except.ok env →
        env = f.params.zip vs ∧
        dispatch_call ctx method (CallArgs.list vs) = remapTypeError (f.body env)) ∧
    resolveAndBind ctx method CallArgs.other =
      Except.error (PyExc.rpc EINVAL
        "Function parameters should be passed as dictionary or array") ∧
    dispatch_call ctx method CallArgs.other =
      Except.error (PyExc.rpc EINVAL
        "Function parameters should be passed as dictionary or array") := by
  have hdict : ∀ kvs, resolveAndBind ctx method (CallArgs.dict kvs) =
      (bindKeyword f kvs).map (fun env => (f, env)) := by
    intro kvs
    unfold resolveAndBind
    simp [hne, hc, hi, hf]
  have hlist : ∀ vs, resolveAndBind ctx method (CallArgs.list vs) =
      (bindPositional f vs).map (fun env => (f, env)) := by
    intro vs
    unfold resolveAndBind
    simp [hne, hc, hi, hf]
  have hother : resolveAndBind ctx method CallArgs.other =
      Except.error (PyExc.rpc EINVAL
        "Function parameters should be passed as dictionary or array") := by
    unfold resolveAndBind
    simp [hne, hc, hi, hf]
  refine ⟨hdict, hlist, ?_, ?_, hother, ?_⟩
  · intro kvs env hb
    unfold dispatch_call
    rw [hdict kvs, hb]
    rfl
  · intro vs env hb
    have hzip : env = f.params.zip vs := by
      unfold bindPositional at hb
      by_cases hcond : f.reqCount ≤ vs.length ∧ vs.length ≤ f.params.length
      · rw [if_pos hcond] at hb
        injection hb with hb'
        exact hb'.symm
      · rw [if_neg hcond] at hb
        exact absurd hb (by simp)
    refine ⟨hzip, ?_⟩
    unfold dispatch_call
    rw [hlist vs, hb]
    rfl
  · unfold dispatch_call
    rw [hother]
    rfl

/-- Witness: the spec's math.add scenario — keyword binding yields 5,
positional binding yields 5, a non-container argument fails
InvalidArgument. -/
theorem binding_mode_by_shape_witness :
    dispatch_call mathCtx "math.add"
        (CallArgs.dict [("a", PyVal.int 2), ("b", PyVal.int 3)]) = Except.ok (PyVal.int 5) ∧
    dispatch_call mathCtx "math.add" (CallArgs.list [PyVal.int 2, PyVal.int 3]) =
      Except.ok (PyVal.int 5) ∧
    dispatch_call mathCtx "math.add" CallArgs.other =
      Except.error (PyExc.rpc EINVAL
        "Function parameters should be passed as dictionary or array") := by
  have h := binding_mode_by_shape mathCtx "math.add" MathService mathInst addMethod
    (by decide) rfl rfl rfl
  refine ⟨?_, ?_, h.2.2.2.2.2⟩
  · have h1 := h.2.2.1 [("a", PyVal.int 2), ("b", PyVal.int 3)]
      [("a", PyVal.int 2), ("b", PyVal.int 3)] rfl
    exact h1.trans rfl
  · have h2 := (h.2.2.2.1 [PyVal.int 2, PyVal.int 3]
      [("a", PyVal.int 2), ("b", PyVal.int 3)] rfl).2
    exact h2.trans rfl

/-- C6: dispatch_call splits the method path at the LAST dot — when the path
has a dot, the service prefix and operation suffix reassemble to the whole
path and the suffix is dot-free (so the prefix carries any further dots);
when the path has no dot, the split yields an empty service name and the
call fails InvalidArgument. -/
theorem path_split_rule (method : String) :
    ('.' ∉ method.data ∧ rpartition method = ("", "", method) ∧
      ∀ ctx args, dispatch_call ctx method args =
        Except.error (PyExc.rpc EINVAL "Invalid function path")) ∨
    ('.' ∈ method.data ∧
      (rpartition method).1.data ++ '.' :: (rpartition method).2.2.data = method.data ∧
      '.' ∉ (rpartition method).2.2.data) := by
  cases h : rpartAux '.' method.data with
  | none =>
    left
    have hnot := (rpartAux_eq_none_iff '.' method.data).mp h
    have hr : rpartition method = ("", "", method) := by
      unfold rpartition
      rw [h]
    refine ⟨hnot, hr, ?_⟩
    intro ctx args
    have h1 : resolveAndBind ctx method args =
        Except.error (PyExc.rpc EINVAL "Invalid function path") := by
      unfold resolveAndBind
      rw [hr]
      simp
    simp [dispatch_call, h1, remapTypeError]
  | some p =>
    obtain ⟨b, a⟩ := p
    right
    obtain ⟨h1, h2⟩ := rpartAux_eq_some '.' method.data b a h
    have hmem : '.' ∈ method.data := by
      rw [← h1]
      simp
    have hr : rpartition method = (String.mk b, ".", String.mk a) := by
      unfold rpartition
      rw [h]
    rw [hr]
    exact ⟨hmem, h1, h2⟩

/-- C7: enumeration of a service's operations never lists the lifecycle
initializer, the enumeration operation itself, or a privacy-marked (leading
underscore) member, and it lists every other member of the instance. -/
theorem enumerate_methods_public_only (inst : ServiceInstance) :
    (∀ m ∈ enumerate_methods inst,
      privacyMarked m = false ∧ m ≠ "initialize" ∧ m ≠ "enumerate_methods" ∧
        m ∈ inst.members.map Prod.fst) ∧
    (∀ m ∈ inst.members.map Prod.fst,
      privacyMarked m = false → m ≠ "initialize" → m ≠ "enumerate_methods" →
        m ∈ enumerate_methods inst) := by
  constructor
  · intro m hm
    rw [enumerate_methods, List.mem_filter] at hm
    obtain ⟨hmem, hcond⟩ := hm
    simp only [Bool.and_eq_true, Bool.not_eq_true', bne_iff_ne] at hcond
    exact ⟨hcond.1.1, hcond.1.2, hcond.2, hmem⟩
  · intro m hmem h1 h2 h3
    rw [enumerate_methods, List.mem_filter]
    refine ⟨hmem, ?_⟩
    simp only [Bool.and_eq_true, Bool.not_eq_true', bne_iff_ne]
    exact ⟨⟨h1, h2⟩, h3⟩

/-- Witness: on the math instance, add is listed by enumerate_methods and is
neither reserved nor privacy-marked. -/
theorem enumerate_methods_public_only_witness :
    "add" ∈ enumerate_methods mathInst ∧
    (privacyMarked "add" = false ∧ "add" ≠ "initialize" ∧ "add" ≠ "enumerate_methods" ∧
      "add" ∈ mathInst.members.map Prod.fst) := by
  constructor
  · exact (enumerate_methods_public_only mathInst).2 "add"
      (by decide) (by decide) (by decide) (by decide)
  · exact (enumerate_methods_public_only mathInst).1 "add" (by decide)
